import Mathlib

/-!
# Verification of the deterministic ride / boost engine

Shallow embedding of the repository's core computation modules:

* `src/unnamed/part_007` — the turning-point ride-curve generator
  (`generateRide` and its enforcement passes), seed/parameter derivation
  (`deriveCrashPct` with the Beta/Gamma samplers), and the ride-value
  interpolator;
* `src/src/computations/finalBoostCalculator.ts` — the boost model
  (`computeBoostModelDetails`, `calculateFinalBoostDetails`);
* `src/src/computations/ticketStrengthScorer.ts` — `computeTicketStrength`.

Numbers are modelled by `ℚ` (exact real-valued semantics of the JavaScript
arithmetic; every decimal-rounding helper of the source is modelled exactly).
The transcendental library functions (`Math.cos`, `Math.log`, `Math.sqrt` and
`Math.pow` with fractional exponents) have no exact rational counterpart, so
the embedding is parameterised by a structure `NumOps` carrying them; every
definition takes the structure as an explicit argument and theorems either
hold for all instantiations or state the hypotheses on the instantiation they
need.  `Math.round` is half-up rounding (`⌊x + 1/2⌋`), as in JavaScript.
-/

namespace Rollercoaster

/-- JavaScript `Math.round`: rounds half toward positive infinity. -/
def jsRound (x : ℚ) : ℤ := ⌊x + 1/2⌋

/-- `roundToDecimals(value, decimals)` from the source:
`Math.round(value * 10^d) / 10^d`. -/
def roundToDecimals (value : ℚ) (decimals : ℕ) : ℚ :=
  (jsRound (value * 10 ^ decimals) : ℚ) / 10 ^ decimals

/-- `clampValue(value, min, max) = Math.max(min, Math.min(max, value))`. -/
def clampValue (value lo hi : ℚ) : ℚ :=
  max lo (min hi value)

/-- Abstract interface for the transcendental `Math` functions used by the
source.  `cosPi x` models `Math.cos(Math.PI * x)`, `log` models `Math.log`,
`sqrt` models `Math.sqrt`, and `powf` models `Math.pow` (which is only applied
to fractional exponents in this code base). -/
structure NumOps where
  cosPi : ℚ → ℚ
  log : ℚ → ℚ
  sqrt : ℚ → ℚ
  powf : ℚ → ℚ → ℚ

/-- A concrete instantiation of `NumOps` used to evaluate the model at inputs
where the result does not depend on the transcendental functions (or only on
values such as `Math.pow(0, e) = 0` that `powf := fun x _ => x` reproduces). -/
def evalOps : NumOps where
  cosPi := fun _ => 0
  log := fun _ => 0
  sqrt := fun _ => 0
  powf := fun x _ => x

/-! ## Seeded pseudo-random source (`SeededRandom` in the source)

The constructor hashes the seed string with the 32-bit signed `hash * 31 + c`
fold (`((hash << 5) - hash) + char`, truncated to int32 at every step), then
takes `Math.abs(hash) || 1` as the LCG state.  `next()` advances the state by
`(state * 1103515245 + 12345) & 0x7fffffff` and returns `state / 0x7fffffff`.
-/

/-- Truncation of an integer to a signed 32-bit value (the effect of
JavaScript's `| 0` / `& hash` on an integer-valued number). -/
def toInt32 (x : ℤ) : ℤ :=
  (x + 2 ^ 31) % 2 ^ 32 - 2 ^ 31

/-- The string-hash loop of the `SeededRandom` constructor. -/
def hashSeed (seed : String) : ℤ :=
  seed.data.foldl (fun hash c => toInt32 (toInt32 (hash * 2 ^ 5) - hash + c.toNat)) 0

/-- Initial LCG state: `Math.abs(hash) || 1`. -/
def seedState (seed : String) : ℕ :=
  let h := hashSeed seed
  if h = 0 then 1 else h.natAbs

/-- One LCG step: `state = (state * 1103515245 + 12345) & 0x7fffffff`,
modelled in exact integer arithmetic.  (In JavaScript the product is a
float64 and may round for large states; no theorem below depends on the
value of any individual draw — the failing evaluations are chosen so that
every draw in `[0, 1]` produces the same rounded output.) -/
def lcgNext (state : ℕ) : ℕ :=
  (state * 1103515245 + 12345) % 2 ^ 31

/-- `next()`: advances the state and returns a rational in `[0, 1]`. -/
def randNext (state : ℕ) : ℚ × ℕ :=
  let s := lcgNext state
  ((s : ℚ) / (2 ^ 31 - 1), s)

/-- `nextRange(min, max) = min + next() * (max - min)`. -/
def randNextRange (state : ℕ) (lo hi : ℚ) : ℚ × ℕ :=
  let r := randNext state
  (lo + r.1 * (hi - lo), r.2)

/-- `randomInt(rng, min, max)`: `Math.floor(rng.nextRange(min, max + 1))`,
returning `min` without consuming the generator when `max <= min`. -/
def randomInt (state : ℕ) (lo hi : ℤ) : ℤ × ℕ :=
  if hi ≤ lo then (lo, state)
  else
    let r := randNextRange state (lo : ℚ) ((hi : ℚ) + 1)
    (⌊r.1⌋, r.2)

/-! ## Distribution samplers (`normalSample`, `gammaSample`, `betaSample`)

The source's `while`-loops (the nonzero draws of Box-Muller and the
Marsaglia-Tsang rejection loop) are unbounded, so they are modelled with an
explicit fuel parameter; when the fuel runs out the model returns `0` with the
current state.  No claim depends on the sampled value (it is clamped before
use), only on the structure around it. -/

/-- Repeated `u = rng.next()` until `u !== 0` (at least one draw). -/
def drawNonzero : ℕ → ℕ → ℚ × ℕ
  | 0, state => (0, state)
  | fuel + 1, state =>
    let r := randNext state
    if r.1 = 0 then drawNonzero fuel r.2 else r

/-- `normalSample(rng, mean, stdDev)` via the Box-Muller transform:
`z = sqrt(-2 ln u) * cos(2 π v)`. -/
def normalSample (ops : NumOps) (fuel : ℕ) (mean stdDev : ℚ) (state : ℕ) : ℚ × ℕ :=
  let ru := drawNonzero fuel state
  let rv := drawNonzero fuel ru.2
  let z := ops.sqrt (-2 * ops.log ru.1) * ops.cosPi (2 * rv.1)
  (mean + z * stdDev, rv.2)

/-- The Marsaglia-Tsang rejection loop of `gammaSample` for `shape >= 1`,
with `d = shape - 1/3` and `c = 1 / sqrt(9 d)` computed by the caller. -/
def gammaMTLoop (ops : NumOps) (d c : ℚ) : ℕ → ℕ → ℚ × ℕ
  | 0, state => (0, state)
  | fuel + 1, state =>
    let rx := normalSample ops (fuel + 1) 0 1 state
    let x := rx.1
    let v := 1 + c * x
    if v ≤ 0 then gammaMTLoop ops d c fuel rx.2
    else
      let v3 := v * v * v
      let ru := randNext rx.2
      let u := ru.1
      if u < 1 - 0.0331 * (x * x * x * x) then (d * v3, ru.2)
      else if ops.log u < 0.5 * (x * x) + d * (1 - v3 + ops.log v3) then (d * v3, ru.2)
      else gammaMTLoop ops d c fuel ru.2

/-- `gammaSample` for `shape >= 1` (Marsaglia-Tsang). -/
def gammaSampleGE1 (ops : NumOps) (fuel : ℕ) (shape : ℚ) (state : ℕ) : ℚ × ℕ :=
  let d := shape - 1/3
  let c := 1 / ops.sqrt (9 * d)
  gammaMTLoop ops d c fuel state

/-- `gammaSample(rng, shape)`.  For `0 < shape < 1` the source recurses at
`shape + 1`, which is `>= 1` and therefore lands in the Marsaglia-Tsang branch
directly; the model inlines that single recursion step. -/
def gammaSample (ops : NumOps) (fuel : ℕ) (shape : ℚ) (state : ℕ) : ℚ × ℕ :=
  if shape ≤ 0 then (0, state)
  else if shape < 1 then
    let ru := randNext state
    let rg := gammaSampleGE1 ops fuel (shape + 1) ru.2
    (rg.1 * ops.powf ru.1 (1 / shape), rg.2)
  else gammaSampleGE1 ops fuel shape state

/-- `betaSample(rng, alpha, beta) = x / (x + y)` with `x ~ Gamma(alpha)`,
`y ~ Gamma(beta)`, and `0.5` when `x + y == 0`. -/
def betaSample (ops : NumOps) (fuel : ℕ) (alpha beta : ℚ) (state : ℕ) : ℚ × ℕ :=
  let rx := gammaSample ops fuel alpha state
  let ry := gammaSample ops fuel beta rx.2
  let x := rx.1
  let y := ry.1
  if x + y = 0 then (1/2, ry.2) else (x / (x + y), ry.2)

/-- `deriveCrashPct(seed, durationSeconds, minCrashSeconds)` from the source
(the spec calls it `deriveCrashFraction`): samples a Beta(10, 5) under the
`"crash:"`-salted generator, scales into `[minCrash, duration]` seconds,
converts to a fraction, clamps to `[0.01, 0.99]` and rounds to 4 decimals.
Returns `1` immediately when `durationSeconds <= 0`. -/
def deriveCrashPct (ops : NumOps) (fuel : ℕ) (seed : String)
    (durationSeconds minCrashSeconds : ℚ) : ℚ :=
  if durationSeconds ≤ 0 then 1
  else
    let minCrash := max 0 (min minCrashSeconds durationSeconds)
    let state := seedState ("crash:" ++ seed)
    let sample := (betaSample ops fuel 10 5 state).1
    let crashSeconds := minCrash + sample * max (durationSeconds - minCrash) 0
    let crashPct := crashSeconds / durationSeconds
    roundToDecimals (clampValue crashPct (1/100) (99/100)) 4

/-! ## Ride checkpoints -/

/-- `RideCheckpoint { index, timeOffsetPct, baseBoostValue }` (the spec's
names are `timeFraction` / `boostValue`). -/
structure RideCheckpoint where
  index : ℕ
  timeOffsetPct : ℚ
  baseBoostValue : ℚ
deriving Repr, DecidableEq

/-- `RideConfig` for `generateRide`.  Optional fields of the TypeScript
interface are `Option`s; `generateRide` applies the source's destructuring
defaults (`ticketStrength = 0`, `minPeakDelaySeconds = 2`, `crashPct ?? 1`). -/
structure RideConfig where
  checkpointCount : ℤ
  volatility : ℚ
  minBoostPct : ℚ
  maxBoostPct : ℚ
  ticketStrength : Option ℚ
  durationSeconds : Option ℚ
  crashPct : Option ℚ
  minPeakDelaySeconds : Option ℚ
deriving Repr

structure GeneratedRide where
  checkpoints : List RideCheckpoint
  seed : String
deriving Repr

/-- `checkpoints[i].baseBoostValue` (0 out of range; all source accesses are
in range). -/
def getBoost (cps : List RideCheckpoint) (i : ℕ) : ℚ :=
  match cps[i]? with
  | some c => c.baseBoostValue
  | none => 0

/-- `checkpoints[i].timeOffsetPct` (0 out of range). -/
def getTime (cps : List RideCheckpoint) (i : ℕ) : ℚ :=
  match cps[i]? with
  | some c => c.timeOffsetPct
  | none => 0

/-- `checkpoints[i].baseBoostValue = v`, leaving `index` and `timeOffsetPct`
untouched. -/
def setBoost : List RideCheckpoint → ℕ → ℚ → List RideCheckpoint
  | [], _, _ => []
  | c :: cs, 0, v => { c with baseBoostValue := v } :: cs
  | c :: cs, n + 1, v => c :: setBoost cs n v

/-- `deriveStartBoostValue(minBoostPct, maxBoostPct, ticketStrength)`:
`min + range * (0.01 + strength^0.85 * 0.14)`, rounded to 6 decimals. -/
def deriveStartBoostValue (ops : NumOps) (minBoostPct maxBoostPct ticketStrength : ℚ) : ℚ :=
  let range := max (maxBoostPct - minBoostPct) 0
  let strength := clampValue ticketStrength 0 1
  let startOffsetPct := 0.01 + ops.powf strength 0.85 * 0.14
  roundToDecimals (minBoostPct + range * startOffsetPct) 6

/-- `initializeCheckpoints`: equal time spacing, all pre-final values at the
starting floor, final value 0. -/
def initializeCheckpoints (ops : NumOps) (checkpointCount : ℕ)
    (minBoostPct maxBoostPct ticketStrength : ℚ) : List RideCheckpoint :=
  let startValue := deriveStartBoostValue ops minBoostPct maxBoostPct ticketStrength
  (List.range checkpointCount).map fun i =>
    { index := i
      timeOffsetPct := roundToDecimals ((i : ℚ) / ((checkpointCount : ℚ) - 1)) 6
      baseBoostValue :=
        if i = checkpointCount - 1 then 0 else roundToDecimals startValue 6 }

/-- `getInitialClimbPct(durationSeconds, preCrashEndPct, seconds)`. -/
def getInitialClimbPct (durationSeconds : Option ℚ) (preCrashEndPct seconds : ℚ) : ℚ :=
  match durationSeconds with
  | none => 0
  | some d =>
    if d ≤ 0 ∨ seconds ≤ 0 then 0
    else
      let rawPct := seconds / d
      let cap := max (preCrashEndPct - 0.000001) 0
      clampValue rawPct 0 cap

/-- `getPreCrashLastCheckpointIndex(checkpoints, crashPct)`: index of the last
checkpoint strictly before the (clamped) crash fraction, clamped into
`[1, length - 2]`. -/
def getPreCrashLastCheckpointIndex (cps : List RideCheckpoint) (crashPct : Option ℚ) : ℕ :=
  let eff := clampValue (crashPct.getD 1) (1/100) (99/100)
  let lastIndex : ℤ :=
    match cps.findIdx? (fun c => decide (eff ≤ c.timeOffsetPct)) with
    | some i => (i : ℤ) - 1
    | none => (cps.length : ℤ) - 2
  (max 1 (min lastIndex ((cps.length : ℤ) - 2))).toNat

/-! ## Turning-point synthesis -/

/-- `enforceSortedTimes(times, minGap, maxValue)`: a forward pass clamping
each interior node above its predecessor plus the gap, then a backward pass
pulling nodes below their successor minus the gap. -/
def enforceSortedTimes (times : List ℚ) (minGap maxValue : ℚ) : List ℚ :=
  let lastNodeIndex := times.length - 1
  let fwd := (List.range' 1 (lastNodeIndex - 1)).foldl
    (fun ts (i : ℕ) =>
      let minAllowed := ts.getD (i - 1) 0 + minGap
      let maxAllowed := maxValue - minGap * ((lastNodeIndex : ℚ) - (i : ℚ))
      ts.set i (clampValue (ts.getD i 0) minAllowed (max minAllowed maxAllowed)))
    times
  ((List.range' 1 (lastNodeIndex - 1)).reverse).foldl
    (fun ts i =>
      let ts' := ts.set i (min (ts.getD i 0) (ts.getD (i + 1) 0 - minGap))
      ts'.set i (max (ts'.getD i 0) (ts'.getD (i - 1) 0 + minGap)))
    fwd

/-- `buildTurningPointTimes(rng, peakCount, preCrashEndPct, minFirstPeakPct)`:
`2 * peakCount + 1` node times across `[0, preCrashEndPct]` with jitter,
minimum spacing, and a nudge of the first peak past `minFirstPeakPct`. -/
def buildTurningPointTimes (state : ℕ) (peakCount : ℤ)
    (preCrashEndPct minFirstPeakPct : ℚ) : List ℚ × ℕ :=
  let nodeCount := (peakCount * 2 + 1).toNat
  let lastNodeIndex := nodeCount - 1
  let times := (List.replicate nodeCount (0 : ℚ)).set lastNodeIndex preCrashEndPct
  if nodeCount ≤ 2 then (times, state)
  else
    let baseSegment := preCrashEndPct / ((nodeCount : ℚ) - 1)
    let minGap := max (baseSegment * 0.35) (max (preCrashEndPct * 0.01) 0.0005)
    let jitterSpan := baseSegment * 0.45
    let jit := (List.range' 1 (lastNodeIndex - 1)).foldl
      (fun (acc : List ℚ × ℕ) i =>
        let r := randNext acc.2
        (acc.1.set i (baseSegment * (i : ℚ) + (r.1 - 0.5) * jitterSpan), r.2))
      (times, state)
    let times := jit.1
    let state := jit.2
    let times := enforceSortedTimes times minGap preCrashEndPct
    let times :=
      if 2 < nodeCount then
        let firstPeakMin := clampValue (minFirstPeakPct + 0.000001) minGap
          (preCrashEndPct - minGap * ((lastNodeIndex : ℚ) - 1))
        if times.getD 1 0 < firstPeakMin then
          let times := times.set 1 firstPeakMin
          let times := (List.range' 2 (lastNodeIndex - 2)).foldl
            (fun ts i => ts.set i (max (ts.getD i 0) (ts.getD (i - 1) 0 + minGap))) times
          let times := ((List.range' 1 (lastNodeIndex - 1)).reverse).foldl
            (fun ts i =>
              ts.set i (min (ts.getD i 0)
                (preCrashEndPct - minGap * ((lastNodeIndex : ℚ) - (i : ℚ)))))
            times
          enforceSortedTimes times minGap preCrashEndPct
        else times
      else times
    ((times.set 0 0).set lastNodeIndex preCrashEndPct, state)

/-- `buildTurningPointValues(rng, peakCount, min, max, times, minPeakDelayPct,
startingFloorValue)`: peak/valley levels with the single highest peak drawn
from `[0.86, 0.98]` of the range, alternation enforcement, near-tie
down-shift of duplicate peak maxima, and a final clamp-and-round. -/
def buildTurningPointValues (state : ℕ) (_peakCount : ℤ)
    (minBoostPct maxBoostPct : ℚ) (turningPointTimes : List ℚ)
    (minPeakDelayPct startingFloorValue : ℚ) : List ℚ × ℕ :=
  let nodeCount := turningPointTimes.length
  let values := List.replicate nodeCount minBoostPct
  let range := max (maxBoostPct - minBoostPct) 0
  let minDelta := max (range * 0.05) 0.0005
  if range ≤ 0 then (values, state)
  else
    let peakNodeIndexes := (List.range nodeCount).filter (fun i => decide (i % 2 = 1))
    let hp :=
      let eligibleHighest := peakNodeIndexes.filter
        (fun idx => decide (minPeakDelayPct ≤ turningPointTimes.getD idx 0))
      if 0 < eligibleHighest.length then
        let r := randomInt state 0 ((eligibleHighest.length : ℤ) - 1)
        (eligibleHighest.getD r.1.toNat 0, r.2)
      else (peakNodeIndexes.getD 0 0, state)
    let highestPeakNode := hp.1
    let state := hp.2
    let hl :=
      let r := randNext state
      (0.86 + r.1 * 0.12, r.2)
    let highestLevel := hl.1
    let state := hl.2
    let pl := peakNodeIndexes.foldl
      (fun (acc : List (ℕ × ℚ) × ℕ) peakNodeIndex =>
        if peakNodeIndex = highestPeakNode then
          (acc.1 ++ [(peakNodeIndex, highestLevel)], acc.2)
        else
          let r1 := randNext acc.2
          let peakLevel := 0.52 + r1.1 * 0.28
          let r2 := randNext r1.2
          (acc.1 ++ [(peakNodeIndex, min peakLevel (highestLevel - (0.03 + r2.1 * 0.05)))], r2.2))
      ([], state)
    let peakLevels := pl.1
    let state := pl.2
    let values := values.set 0 startingFloorValue
    let vl := (List.range' 1 (nodeCount - 1)).foldl
      (fun (acc : List ℚ × ℕ) i =>
        if i % 2 = 1 then
          let peakLevel := (peakLevels.lookup i).getD 0.6
          (acc.1.set i (minBoostPct + peakLevel * range), acc.2)
        else
          let r := randNext acc.2
          let valleyLevel := if i = nodeCount - 1 then 0.1 + r.1 * 0.16 else 0.18 + r.1 * 0.18
          (acc.1.set i (max startingFloorValue (minBoostPct + valleyLevel * range)), r.2))
      (values, state)
    let values := vl.1
    let state := vl.2
    let values := (List.range (nodeCount - 1)).foldl
      (fun vs i =>
        let vi := vs.getD i 0
        let vn := vs.getD (i + 1) 0
        if i % 2 = 0 then
          if vn ≤ vi + minDelta then vs.set (i + 1) (min maxBoostPct (vi + minDelta)) else vs
        else
          if vi - minDelta ≤ vn then vs.set (i + 1) (max minBoostPct (vi - minDelta)) else vs)
      values
    let peakMax := (peakNodeIndexes.foldl
      (fun (m : Option ℚ) idx =>
        match m with
        | none => some (values.getD idx 0)
        | some mv => some (max mv (values.getD idx 0))) none).getD 0
    let tieThreshold := max (range * 0.0001) 0.000001
    let tb := peakNodeIndexes.foldl
      (fun (acc : List ℚ × Bool) idx =>
        if tieThreshold < |acc.1.getD idx 0 - peakMax| then acc
        else if acc.2 = false then (acc.1, true)
        else (acc.1.set idx (max minBoostPct (acc.1.getD idx 0 - range * 0.01)), true))
      (values, false)
    (tb.1.map (fun v => roundToDecimals (clampValue v minBoostPct maxBoostPct) 6), state)

/-- `interpolateTurningPointValue(times, values, timePct)`: cosine-eased
interpolation between the bracketing turning points. -/
def interpolateTurningPointValue (ops : NumOps) (times values : List ℚ) (timePct : ℚ) : ℚ :=
  let lastNodeIndex := times.length - 1
  if timePct ≤ times.getD 0 0 then values.getD 0 0
  else if times.getD lastNodeIndex 0 ≤ timePct then values.getD lastNodeIndex 0
  else
    match (List.range lastNodeIndex).findSome? (fun i =>
      let start := times.getD i 0
      let stop := times.getD (i + 1) 0
      if timePct < start ∨ stop < timePct then none
      else
        let segmentPct := (timePct - start) / max (stop - start) 0.000001
        let eased := 0.5 - 0.5 * ops.cosPi segmentPct
        let vFrom := values.getD i 0
        let vTo := values.getD (i + 1) 0
        some (vFrom + (vTo - vFrom) * eased)) with
    | some v => v
    | none => values.getD lastNodeIndex 0

/-- `fillCheckpointValuesFromTurningPoints`: writes the eased interpolation of
the turning points into checkpoints `0..preCrashLastIndex`, clamped and
rounded. -/
def fillCheckpointValuesFromTurningPoints (ops : NumOps) (cps : List RideCheckpoint)
    (times values : List ℚ) (preCrashLastIndex : ℕ)
    (minBoostPct maxBoostPct : ℚ) : List RideCheckpoint :=
  (List.range (preCrashLastIndex + 1)).foldl
    (fun acc i =>
      let value := interpolateTurningPointValue ops times values (getTime acc i)
      setBoost acc i (roundToDecimals (clampValue value minBoostPct maxBoostPct) 6))
    cps

/-- `fillPostCrashTail`: quadratic decay toward 0 on checkpoints strictly
between the pre-crash boundary and the final checkpoint. -/
def fillPostCrashTail (cps : List RideCheckpoint) (preCrashLastIndex : ℕ)
    (minBoostPct maxBoostPct : ℚ) : List RideCheckpoint :=
  if (cps.length : ℤ) - 2 ≤ (preCrashLastIndex : ℤ) then cps
  else
    let startValue := getBoost cps preCrashLastIndex
    let startTimePct := getTime cps preCrashLastIndex
    (List.range' (preCrashLastIndex + 1) (cps.length - 1 - (preCrashLastIndex + 1))).foldl
      (fun acc i =>
        let denom := max (1 - startTimePct) 0.000001
        let progress := (getTime acc i - startTimePct) / denom
        let target := startValue * (1 - progress * progress)
        setBoost acc i (roundToDecimals (clampValue target (minBoostPct * 0.1) maxBoostPct) 6))
      cps

/-! ## Enforcement passes -/

structure StartBiasOptions where
  minBoostPct : ℚ
  maxBoostPct : ℚ
  ticketStrength : ℚ

/-- `applyStartDirectionBias(checkpoints, seed, options)`: with probability
`0.7 * strength` under the `"start-bias:"`-salted generator, flips an opening
downswing into an upswing by adjusting checkpoints 0 and 1. -/
def applyStartDirectionBias (cps : List RideCheckpoint) (seed : String)
    (o : StartBiasOptions) : List RideCheckpoint :=
  if cps.length < 2 then cps
  else
    let strength := clampValue o.ticketStrength 0 1
    if strength ≤ 0 then cps
    else
      let first := getBoost cps 0
      let second := getBoost cps 1
      if first < second then cps
      else
        let state := seedState ("start-bias:" ++ seed)
        let flipChance := 0.7 * strength
        if flipChance ≤ (randNext state).1 then cps
        else
          let range := max (o.maxBoostPct - o.minBoostPct) 0
          let step := max (range * 0.03) 0.000001
          let pair :=
            if min o.maxBoostPct (first + step) ≤ first then
              let nf := max o.minBoostPct (first - step)
              (nf, min o.maxBoostPct (nf + step))
            else (first, min o.maxBoostPct (first + step))
          setBoost (setBoost cps 0 (roundToDecimals pair.1 6)) 1
            (roundToDecimals pair.2 6)

structure InitialClimbOptions where
  minBoostPct : ℚ
  maxBoostPct : ℚ
  durationSeconds : Option ℚ
  crashPct : Option ℚ
  initialClimbSeconds : ℚ

/-- The index-collection loop of `enforceInitialClimb`: walk from index 1,
break at the first checkpoint at or past the crash fraction, collect indexes
whose time is before the climb end, and stop at the boundary index.  The fuel
is the list length, so the walk never runs out. -/
def climbCollect (cps : List RideCheckpoint) (eff climbEnd : ℚ) :
    ℕ → ℕ → List ℕ × ℤ
  | 0, _ => ([], -1)
  | fuel + 1, i =>
    match cps[i]? with
    | none => ([], -1)
    | some c =>
      if eff ≤ c.timeOffsetPct then ([], -1)
      else if c.timeOffsetPct < climbEnd then
        let (rest, b) := climbCollect cps eff climbEnd fuel (i + 1)
        (i :: rest, b)
      else ([], (i : ℤ))

/-- `enforceInitialClimb(checkpoints, options)`: forces a monotonic increase
over the checkpoints within the first `initialClimbSeconds` of elapsed time,
lowering checkpoint 0 if needed to create headroom, then lifting the boundary
checkpoint above its predecessor. -/
def enforceInitialClimb (cps : List RideCheckpoint) (o : InitialClimbOptions) :
    List RideCheckpoint :=
  match o.durationSeconds with
  | none => cps
  | some dur =>
    if cps.length < 2 ∨ dur ≤ 0 then cps
    else if o.initialClimbSeconds ≤ 0 then cps
    else
      let eff := clampValue (o.crashPct.getD 1) (1/100) (99/100)
      let climbEnd := min (o.initialClimbSeconds / dur) (eff - 0.000001)
      if climbEnd ≤ 0 then cps
      else
        let range := max (o.maxBoostPct - o.minBoostPct) 0
        let preBoundaryCap :=
          max o.minBoostPct (o.maxBoostPct - max (range * 0.005) 0.000001)
        let collected := climbCollect cps eff climbEnd cps.length 1
        let beforeIdx := collected.1
        let boundaryIndex := collected.2
        if beforeIdx.isEmpty ∧ boundaryIndex < 1 then cps
        else
          let defaultStep := max (range * 0.004) 0.00001
          let availableHeadroom := max (preBoundaryCap - getBoost cps 0) 0
          let adaptiveStep :=
            if 0 < beforeIdx.length then
              max (min defaultStep (availableHeadroom / ((beforeIdx.length : ℚ) + 1)))
                0.000001
            else defaultStep
          let cps :=
            if 0 < beforeIdx.length then
              let requiredHeadroom := adaptiveStep * ((beforeIdx.length : ℚ) + 1)
              let maxStart := preBoundaryCap - requiredHeadroom
              if maxStart < getBoost cps 0 then
                setBoost cps 0 (roundToDecimals
                  (clampValue maxStart o.minBoostPct (preBoundaryCap - adaptiveStep)) 6)
              else cps
            else cps
          let climbed := (beforeIdx.enum.foldl
            (fun (acc : List RideCheckpoint × ℚ) (pos_idx : ℕ × ℕ) =>
              let remaining := (beforeIdx.length : ℚ) - (pos_idx.1 : ℚ) - 1
              let minForPoint := acc.2 + adaptiveStep
              let maxForPoint := preBoundaryCap - adaptiveStep * (remaining + 1)
              let upperBound := max minForPoint maxForPoint
              let target := clampValue (getBoost acc.1 pos_idx.2) minForPoint upperBound
              let cur := setBoost acc.1 pos_idx.2 (roundToDecimals target 6)
              (cur, getBoost cur pos_idx.2))
            (cps, getBoost cps 0)).1
          let cps := climbed
          if 0 < boundaryIndex then
            let bi := boundaryIndex.toNat
            let prev := getBoost cps (bi - 1)
            let boundaryTarget :=
              clampValue (max (getBoost cps bi) (prev + adaptiveStep))
                o.minBoostPct o.maxBoostPct
            let boundaryTarget :=
              if boundaryTarget ≤ prev then
                let nudge := min (o.maxBoostPct - prev) 0.000001
                if 0 < nudge then prev + nudge else prev
              else boundaryTarget
            setBoost cps bi (roundToDecimals boundaryTarget 6)
          else cps

structure PeakDelayEnforcementOptions where
  minBoostPct : ℚ
  maxBoostPct : ℚ
  durationSeconds : Option ℚ
  crashPct : Option ℚ
  minPeakDelaySeconds : ℚ
  seed : Option String

/-- The max-scan of `enforcePeakDelayWithoutFlattening`: strict-`>` maximum
over checkpoints strictly before the crash fraction (`none` plays the role of
`-Infinity`). -/
def preCrashMaxScan (cps : List RideCheckpoint) (eff : ℚ) :
    ℕ → ℕ → ℤ × Option ℚ → ℤ × Option ℚ
  | 0, _, acc => acc
  | fuel + 1, i, acc =>
    match cps[i]? with
    | none => acc
    | some c =>
      if eff ≤ c.timeOffsetPct then acc
      else
        let acc' :=
          match acc.2 with
          | none => ((i : ℤ), some c.baseBoostValue)
          | some m =>
            if m < c.baseBoostValue then ((i : ℤ), some c.baseBoostValue)
            else (acc.1, some m)
        preCrashMaxScan cps eff fuel (i + 1) acc'

/-- The candidate collection of `enforcePeakDelayWithoutFlattening`: indexes
with time in `[minPeakDelayPct, effectiveCrashPct)`. -/
def collectDelayCandidates (cps : List RideCheckpoint) (eff delay : ℚ) :
    ℕ → ℕ → List ℕ
  | 0, _ => []
  | fuel + 1, i =>
    match cps[i]? with
    | none => []
    | some c =>
      if eff ≤ c.timeOffsetPct then []
      else if delay ≤ c.timeOffsetPct then
        i :: collectDelayCandidates cps eff delay fuel (i + 1)
      else collectDelayCandidates cps eff delay fuel (i + 1)

/-- `enforcePeakDelayWithoutFlattening(checkpoints, options)`: if the global
pre-crash maximum occurs before `minPeakDelaySeconds`, promotes one candidate
checkpoint past it (chosen by the `"peak-delay-promote:"`-salted generator),
clamped to the boost range and rounded. -/
def enforcePeakDelayWithoutFlattening (cps : List RideCheckpoint)
    (o : PeakDelayEnforcementOptions) : List RideCheckpoint :=
  match o.durationSeconds with
  | none => cps
  | some dur =>
    if cps.length < 3 ∨ dur ≤ 0 then cps
    else
      let minPeakDelayPct := o.minPeakDelaySeconds / dur
      let eff := clampValue (o.crashPct.getD 1) (1/100) (99/100)
      if minPeakDelayPct ≤ 0 ∨ eff ≤ minPeakDelayPct then cps
      else
        let scanned := preCrashMaxScan cps eff cps.length 0 (-1, none)
        let maxIndex := scanned.1
        if maxIndex < 0 then cps
        else if minPeakDelayPct ≤ getTime cps maxIndex.toNat then cps
        else
          let candidateIndexes := collectDelayCandidates cps eff minPeakDelayPct cps.length 0
          if candidateIndexes.isEmpty then cps
          else
            let maxValue := scanned.2.getD 0
            let range := max (o.maxBoostPct - o.minBoostPct) 0
            let epsilon := max (range * 0.01) 0.0005
            let state := seedState ("peak-delay-promote:" ++ o.seed.getD "")
            let j := (randomInt state 0 ((candidateIndexes.length : ℤ) - 1)).1
            let promoteIndex := candidateIndexes.getD j.toNat 0
            let promoted := clampValue (maxValue + epsilon) o.minBoostPct o.maxBoostPct
            setBoost cps promoteIndex (roundToDecimals promoted 6)

structure PreCrashFloorOptions where
  minBoostPct : ℚ
  maxBoostPct : ℚ
  crashPct : Option ℚ
  floorValue : ℚ

/-- `enforcePreCrashFloor(checkpoints, options)`: no pre-crash checkpoint
(from index 1 on) may fall below the clamped floor value. -/
def enforcePreCrashFloor (cps : List RideCheckpoint) (o : PreCrashFloorOptions) :
    List RideCheckpoint :=
  if cps.length < 2 then cps
  else
    let k := getPreCrashLastCheckpointIndex cps o.crashPct
    if k < 1 then cps
    else
      let floorV := clampValue o.floorValue o.minBoostPct o.maxBoostPct
      (List.range' 1 k).foldl
        (fun acc i =>
          if getBoost acc i < floorV then setBoost acc i (roundToDecimals floorV 6)
          else acc)
        cps

structure UniqueMaxOptions where
  minBoostPct : ℚ
  maxBoostPct : ℚ
  crashPct : Option ℚ

/-- `enforceUniquePreCrashMaximum(checkpoints, options)`: keeps the first
checkpoint within the tie threshold of the pre-crash maximum and lowers every
later one by an increasing epsilon. -/
def enforceUniquePreCrashMaximum (cps : List RideCheckpoint) (o : UniqueMaxOptions) :
    List RideCheckpoint :=
  if cps.length < 3 then cps
  else
    let k := getPreCrashLastCheckpointIndex cps o.crashPct
    if k < 1 then cps
    else
      let maxValue := (List.range (k + 1)).foldl
        (fun m i => max m (getBoost cps i)) (getBoost cps 0)
      let range := max (o.maxBoostPct - o.minBoostPct) 0
      let threshold := max (range * 0.0001) 0.000001
      let epsilon := max (range * 0.008) 0.0002
      let pass := (List.range (k + 1)).foldl
        (fun (acc : List RideCheckpoint × Bool × ℕ) i =>
          if threshold < |getBoost acc.1 i - maxValue| then acc
          else if acc.2.1 = false then (acc.1, true, acc.2.2)
          else
            let dup := acc.2.2 + 1
            let lowered := clampValue (maxValue - epsilon * (dup : ℚ))
              o.minBoostPct o.maxBoostPct
            (setBoost acc.1 i (roundToDecimals lowered 6), acc.2.1, dup))
        (cps, false, 0)
      pass.1

structure FlatSegmentOptions where
  minBoostPct : ℚ
  maxBoostPct : ℚ
  crashPct : Option ℚ
  minPreCrashValue : Option ℚ

/-- `directionOf(delta, threshold)`. -/
def directionOf (delta threshold : ℚ) : ℤ :=
  if threshold < delta then 1 else if delta < -threshold then -1 else 0

/-- `inferDirection(checkpoints, startIndex, preCrashLastIndex, threshold)`:
the first nonzero step direction at or after `startIndex + 1`, defaulting to
`1`. -/
def inferDirection (cps : List RideCheckpoint) (startIndex preCrashLastIndex : ℕ)
    (threshold : ℚ) : ℤ :=
  match (List.range' (startIndex + 1) (preCrashLastIndex - startIndex)).findSome?
    (fun i =>
      let d := directionOf (getBoost cps i - getBoost cps (i - 1)) threshold
      if d = 0 then none else some d) with
  | some d => d
  | none => 1

/-- `enforceNoFlatSegmentsBeforeCrash(checkpoints, options)`: nudges any
pre-crash checkpoint within the flatness threshold of its predecessor apart,
along the locally inferred trend direction, bounded below by the starting
floor and above by the max boost. -/
def enforceNoFlatSegmentsBeforeCrash (cps : List RideCheckpoint)
    (o : FlatSegmentOptions) : List RideCheckpoint :=
  if cps.length < 3 then cps
  else
    let k := getPreCrashLastCheckpointIndex cps o.crashPct
    if k < 1 then cps
    else
      let range := max (o.maxBoostPct - o.minBoostPct) 0
      let threshold := max (range * 0.0005) 0.000001
      let step := max (range * 0.002) 0.00001
      let minPreCrashValue := clampValue (o.minPreCrashValue.getD o.minBoostPct)
        o.minBoostPct o.maxBoostPct
      (List.range' 1 k).foldl
        (fun acc i =>
          let prev := getBoost acc (i - 1)
          let curr := getBoost acc i
          if threshold < |curr - prev| then acc
          else
            let direction := inferDirection acc i k threshold
            let direction := if direction = 0 then 1 else direction
            let adjusted := clampValue (prev + (direction : ℚ) * step)
              minPreCrashValue o.maxBoostPct
            let adjusted :=
              if |adjusted - prev| ≤ threshold then
                clampValue (prev - (direction : ℚ) * step) minPreCrashValue o.maxBoostPct
              else adjusted
            let adjusted :=
              if |adjusted - prev| ≤ threshold then
                let nudge : ℚ := if 0 < direction then 0.000001 else -0.000001
                clampValue (prev + nudge) minPreCrashValue o.maxBoostPct
              else adjusted
            setBoost acc i (roundToDecimals adjusted 6))
        cps

/-! ## `generateRide` -/

/-- `generateRide(seed, config)` from `src/unnamed/part_007`: initialization,
turning-point synthesis and fill, post-crash tail, and the six enforcement
passes in source order, with the final checkpoint forced to 0. -/
def generateRide (ops : NumOps) (seed : String) (config : RideConfig) : GeneratedRide :=
  let ticketStrength := config.ticketStrength.getD 0
  let minPeakDelaySeconds := config.minPeakDelaySeconds.getD 2
  let normalizedCheckpointCount := (max 3 config.checkpointCount).toNat
  let state := seedState ("ride:" ++ seed)
  let checkpoints := initializeCheckpoints ops normalizedCheckpointCount
    config.minBoostPct config.maxBoostPct ticketStrength
  let startingFloorValue := getBoost checkpoints 0
  let effectiveCrashPct := clampValue (config.crashPct.getD 1) (1/100) (99/100)
  let preCrashLastIndex := getPreCrashLastCheckpointIndex checkpoints (some effectiveCrashPct)
  let checkpoints :=
    if 1 ≤ preCrashLastIndex then
      let preCrashEndPct := getTime checkpoints preCrashLastIndex
      let initialClimbPct := getInitialClimbPct config.durationSeconds preCrashEndPct 2
      let minPeakDelayPct :=
        getInitialClimbPct config.durationSeconds preCrashEndPct minPeakDelaySeconds
      let peakCapByPoints := max 1 ((preCrashLastIndex : ℤ) / 2)
      let pc := randomInt state 1 (min 4 peakCapByPoints)
      let peakCount := pc.1
      let tpt := buildTurningPointTimes pc.2 peakCount
        preCrashEndPct (max initialClimbPct minPeakDelayPct)
      let turningPointTimes := tpt.1
      let turningPointValues := (buildTurningPointValues tpt.2 peakCount
        config.minBoostPct config.maxBoostPct turningPointTimes
        (max initialClimbPct minPeakDelayPct) startingFloorValue).1
      let checkpoints := fillCheckpointValuesFromTurningPoints ops checkpoints
        turningPointTimes turningPointValues preCrashLastIndex
        config.minBoostPct config.maxBoostPct
      fillPostCrashTail checkpoints preCrashLastIndex config.minBoostPct config.maxBoostPct
    else checkpoints
  let checkpoints := applyStartDirectionBias checkpoints seed
    ⟨config.minBoostPct, config.maxBoostPct, ticketStrength⟩
  let checkpoints := enforceInitialClimb checkpoints
    ⟨config.minBoostPct, config.maxBoostPct, config.durationSeconds, config.crashPct, 2⟩
  let checkpoints := enforcePeakDelayWithoutFlattening checkpoints
    ⟨config.minBoostPct, config.maxBoostPct, config.durationSeconds, config.crashPct,
      minPeakDelaySeconds, some seed⟩
  let checkpoints := enforcePreCrashFloor checkpoints
    ⟨config.minBoostPct, config.maxBoostPct, config.crashPct, startingFloorValue⟩
  let checkpoints := enforceUniquePreCrashMaximum checkpoints
    ⟨config.minBoostPct, config.maxBoostPct, config.crashPct⟩
  let checkpoints := enforceNoFlatSegmentsBeforeCrash checkpoints
    ⟨config.minBoostPct, config.maxBoostPct, config.crashPct, some startingFloorValue⟩
  { checkpoints := setBoost checkpoints (checkpoints.length - 1) 0, seed := seed }

/-! ## Ride value interpolation -/

/-- `interpolateRideValue(checkpoints, elapsedPct)`: 0 on an empty array,
boundary values outside the time range, otherwise linear interpolation
between the bracketing checkpoints rounded to 6 decimals. -/
def interpolateRideValue (cps : List RideCheckpoint) (elapsedPct : ℚ) : ℚ :=
  if cps.length = 0 then 0
  else
    let pct := max 0 (min 1 elapsedPct)
    if pct ≤ getTime cps 0 then getBoost cps 0
    else if getTime cps (cps.length - 1) ≤ pct then getBoost cps (cps.length - 1)
    else
      let lowerIdx :=
        match (List.range (cps.length - 1)).findSome? (fun i =>
          if getTime cps i ≤ pct ∧ pct < getTime cps (i + 1) then some i else none) with
        | some i => i
        | none => 0
      let segmentPct := (pct - getTime cps lowerIdx) /
        (getTime cps (lowerIdx + 1) - getTime cps lowerIdx)
      roundToDecimals
        (getBoost cps lowerIdx +
          segmentPct * (getBoost cps (lowerIdx + 1) - getBoost cps lowerIdx)) 6

/-! ## Boost model (`finalBoostCalculator.ts`) -/

structure FinalBoostConfig where
  minBoostPct : ℚ
  maxBoostPct : ℚ
  maxBoostMinSelections : Option ℚ
  maxBoostMinCombinedOdds : Option ℚ
deriving Repr

structure FinalBoostInput where
  rideValue : ℚ
  ticketStrength : ℚ
  qualifyingSelections : ℚ
  combinedOdds : ℚ
  hasRideEnded : Bool
  config : FinalBoostConfig
deriving Repr

structure BoostModelDetails where
  selectionWeight : ℚ
  oddsWeight : ℚ
  maxEligibilityExponent : ℚ
  effectiveMinFloorRate : ℚ
  selectionRatio : Option ℚ
  oddsRatio : Option ℚ
  eligibilityFactor : ℚ
  effectiveMinBoost : ℚ
  effectiveMaxBoost : ℚ
deriving Repr

structure FinalBoostDetails where
  finalBoostPct : ℚ
  rawBoost : ℚ
  effectiveMaxBoost : ℚ
  minBoost : ℚ
  isClampedToMax : Bool
  isClampedToMin : Bool
  boostModel : BoostModelDetails
deriving Repr

def MAX_ELIGIBILITY_EXPONENT : ℚ := 1.2
def MAX_ELIGIBILITY_SELECTION_WEIGHT : ℚ := 0.75
def MAX_ELIGIBILITY_ODDS_WEIGHT : ℚ := 0.25
def EFFECTIVE_MIN_FLOOR_RATE : ℚ := 0.35

/-- Whether a max-boost threshold is configured (`target > 0` after the
`?? 0` default). -/
def hasAnyBoostTarget (config : FinalBoostConfig) : Bool :=
  decide (0 < config.maxBoostMinSelections.getD 0) ||
    decide (0 < config.maxBoostMinCombinedOdds.getD 0)

/-- The (unrounded) `eligibilityFactor` computed inside
`computeBoostModelDetails`: 1 with no thresholds, the 0.75/0.25-weighted
product of the `^1.2` components with both, a single `^1.2` component
otherwise. -/
def eligibilityFactorOf (ops : NumOps) (qualifyingSelections combinedOdds : ℚ)
    (config : FinalBoostConfig) : ℚ :=
  let selectionTarget := config.maxBoostMinSelections.getD 0
  let oddsTarget := config.maxBoostMinCombinedOdds.getD 0
  let selRatioVal := max 0 (min (qualifyingSelections / selectionTarget) 1)
  let oddsRatioVal := max 0 (min (combinedOdds / oddsTarget) 1)
  if 0 < selectionTarget then
    if 0 < oddsTarget then
      min 1 (ops.powf (ops.powf selRatioVal MAX_ELIGIBILITY_EXPONENT)
          MAX_ELIGIBILITY_SELECTION_WEIGHT *
        ops.powf (ops.powf oddsRatioVal MAX_ELIGIBILITY_EXPONENT)
          MAX_ELIGIBILITY_ODDS_WEIGHT)
    else ops.powf selRatioVal MAX_ELIGIBILITY_EXPONENT
  else if 0 < oddsTarget then ops.powf oddsRatioVal MAX_ELIGIBILITY_EXPONENT
  else 1

/-- The (unrounded) `boundedMax` of `computeBoostModelDetails`:
`max(minBoostPct, minBoostPct + (maxBoostPct - minBoostPct) * eligibility)`. -/
def boundedMaxOf (ops : NumOps) (qualifyingSelections combinedOdds : ℚ)
    (config : FinalBoostConfig) : ℚ :=
  max config.minBoostPct
    (config.minBoostPct + (config.maxBoostPct - config.minBoostPct) *
      eligibilityFactorOf ops qualifyingSelections combinedOdds config)

/-- The (unrounded) `boundedMin` of `computeBoostModelDetails`:
`clamp(min + (boundedMax - min) * floorLift, min, boundedMax)` where the
floor-lift factor is `eligibility * 0.35` when a threshold is configured and
`0` otherwise. -/
def boundedMinOf (ops : NumOps) (qualifyingSelections combinedOdds : ℚ)
    (config : FinalBoostConfig) : ℚ :=
  let boundedMax := boundedMaxOf ops qualifyingSelections combinedOdds config
  let floorLiftFactor :=
    if hasAnyBoostTarget config then
      eligibilityFactorOf ops qualifyingSelections combinedOdds config *
        EFFECTIVE_MIN_FLOOR_RATE
    else 0
  clampValue (config.minBoostPct + (boundedMax - config.minBoostPct) * floorLiftFactor)
    config.minBoostPct boundedMax

/-- `computeBoostModelDetails(qualifyingSelections, combinedOdds, config)`. -/
def computeBoostModelDetails (ops : NumOps) (qualifyingSelections combinedOdds : ℚ)
    (config : FinalBoostConfig) : BoostModelDetails :=
  let selectionTarget := config.maxBoostMinSelections.getD 0
  let oddsTarget := config.maxBoostMinCombinedOdds.getD 0
  let selRatioOpt : Option ℚ :=
    if 0 < selectionTarget then some (max 0 (min (qualifyingSelections / selectionTarget) 1))
    else none
  let oddsRatioOpt : Option ℚ :=
    if 0 < oddsTarget then some (max 0 (min (combinedOdds / oddsTarget) 1))
    else none
  { selectionWeight := MAX_ELIGIBILITY_SELECTION_WEIGHT
    oddsWeight := MAX_ELIGIBILITY_ODDS_WEIGHT
    maxEligibilityExponent := MAX_ELIGIBILITY_EXPONENT
    effectiveMinFloorRate := EFFECTIVE_MIN_FLOOR_RATE
    selectionRatio := selRatioOpt.map (fun r => roundToDecimals r 6)
    oddsRatio := oddsRatioOpt.map (fun r => roundToDecimals r 6)
    eligibilityFactor :=
      roundToDecimals (eligibilityFactorOf ops qualifyingSelections combinedOdds config) 6
    effectiveMinBoost :=
      roundToDecimals (boundedMinOf ops qualifyingSelections combinedOdds config) 6
    effectiveMaxBoost :=
      roundToDecimals (boundedMaxOf ops qualifyingSelections combinedOdds config) 6 }

/-- `calculateFinalBoostDetails(input)`: short-circuits to 0 when the ride has
ended, else amplifies the ride value around the effective midpoint by the
ticket strength, compresses by the strength multiplier, clamps to the
effective window, and rounds to 6 decimals. -/
def calculateFinalBoostDetails (ops : NumOps) (input : FinalBoostInput) :
    FinalBoostDetails :=
  let boostModel := computeBoostModelDetails ops input.qualifyingSelections
    input.combinedOdds input.config
  let effectiveMinBoost := boostModel.effectiveMinBoost
  let effectiveMaxBoost := boostModel.effectiveMaxBoost
  if input.hasRideEnded then
    { finalBoostPct := 0, rawBoost := 0, effectiveMaxBoost := effectiveMaxBoost
      minBoost := effectiveMinBoost, isClampedToMax := false, isClampedToMin := false
      boostModel := boostModel }
  else
    let midPoint := (effectiveMinBoost + effectiveMaxBoost) / 2
    let volatilityMultiplier := 0.5 + input.ticketStrength * 0.8
    let adjustedRideValue := midPoint + (input.rideValue - midPoint) * volatilityMultiplier
    let strengthMultiplier := 0.4 + input.ticketStrength * 0.6
    let rawBoost := adjustedRideValue * strengthMultiplier
    let clampedBoost := clampValue rawBoost effectiveMinBoost effectiveMaxBoost
    { finalBoostPct := roundToDecimals clampedBoost 6, rawBoost := rawBoost
      effectiveMaxBoost := effectiveMaxBoost, minBoost := effectiveMinBoost
      isClampedToMax := decide (effectiveMaxBoost < rawBoost)
      isClampedToMin := decide (rawBoost < effectiveMinBoost)
      boostModel := boostModel }

/-! ## Ticket strength (`ticketStrengthScorer.ts`) -/

structure TicketStrengthConfig where
  minSelections : ℚ
  baseOdds : Option ℚ
  exponent : Option ℚ
  maxSelectionBonus : Option ℚ
deriving Repr

/-- `computeTicketStrength(qualifyingCount, combinedOdds, config)`: 0 below
the selection minimum or at combined odds `<= 1`, else the convex product
`selectionFactor^e * max(oddsFactor, 0.1)^e` capped at 1 and rounded to 6
decimals. -/
def computeTicketStrength (ops : NumOps) (qualifyingCount combinedOdds : ℚ)
    (config : TicketStrengthConfig) : ℚ :=
  let baseOdds := config.baseOdds.getD 3
  let exponent := config.exponent.getD 1.5
  let maxSelectionBonus := config.maxSelectionBonus.getD 10
  if qualifyingCount < config.minSelections ∨ combinedOdds ≤ 1 then 0
  else
    let selectionBonus := min (qualifyingCount - config.minSelections + 1) maxSelectionBonus
    let selectionFactor := selectionBonus / maxSelectionBonus
    let oddsFactor := ops.log combinedOdds / ops.log (baseOdds * 100)
    let rawStrength :=
      ops.powf selectionFactor exponent * ops.powf (max oddsFactor 0.1) exponent
    roundToDecimals (min rawStrength 1) 6

/-! ## Auxiliary definitions used by the verification -/

/-- The time fractions of a checkpoint sequence. -/
def timeList (cps : List RideCheckpoint) : List ℚ :=
  cps.map fun c => c.timeOffsetPct

/-- The boost values of a checkpoint sequence. -/
def boostList (cps : List RideCheckpoint) : List ℚ :=
  cps.map fun c => c.baseBoostValue

/-- A monotone instantiation of `NumOps` (identity logarithm, identity power):
it satisfies the monotonicity and positivity hypotheses that the real
`Math.log` / `Math.pow` satisfy on the relevant domains. -/
def monoOps : NumOps where
  cosPi := fun _ => 0
  log := fun x => x
  sqrt := fun _ => 0
  powf := fun x _ => x

/-- Ride configuration exhibiting a multi-way tie at the pre-crash maximum:
the boost window `[0.05, 0.0500004]` is narrower than one rounding unit, so
every pre-crash write collapses to `0.05` under `round₆ ∘ clamp` — for every
random draw in `[0, 1]` and every easing value, which makes the generated
curve independent of the `NumOps` instantiation and of the PRNG stream. -/
def tieRideConfig : RideConfig where
  checkpointCount := 6
  volatility := 1/2
  minBoostPct := 1/20
  maxBoostPct := 500004/10000000
  ticketStrength := some 0
  durationSeconds := some 10
  crashPct := some (4/5)
  minPeakDelaySeconds := some 2

/-- The same degenerate-window configuration under the concrete scenario of
the spec's peak-delay property: `durationSeconds = 10`, `crashFraction = 0.8`,
`minPeakDelaySeconds = 2`. -/
def peakDelayRideConfig : RideConfig where
  checkpointCount := 6
  volatility := 1/2
  minBoostPct := 1/20
  maxBoostPct := 500004/10000000
  ticketStrength := some 0
  durationSeconds := some 10
  crashPct := some (4/5)
  minPeakDelaySeconds := some 2

/-- Ride configuration whose boost bounds are not representable at 6 decimal
places (`minBoostPct = 0.0500014`): the starting value
`min + range * 0.01 = 0.050001401` rounds *below* `minBoostPct`.  Checkpoint 0
is never raised afterwards, and with `crashPct = 0.01` only checkpoint 0 is
strictly pre-crash.  As the window is narrower than a rounding unit, the
result is again independent of the `NumOps` instantiation and of the PRNG
stream. -/
def subUlpRideConfig : RideConfig where
  checkpointCount := 6
  volatility := 1/2
  minBoostPct := 500014/10000000
  maxBoostPct := 500015/10000000
  ticketStrength := some 0
  durationSeconds := some 10
  crashPct := some (1/100)
  minPeakDelaySeconds := some 2

/-- The unclamped boost formula of `calculateFinalBoostDetails` (operand
order as in the source): amplify around the midpoint by
`0.5 + ticketStrength * 0.8`, then compress by `0.4 + ticketStrength * 0.6`. -/
def rawBoostFormula (rv ts effMin effMax : ℚ) : ℚ :=
  let midPoint := (effMin + effMax) / 2
  (midPoint + (rv - midPoint) * (0.5 + ts * 0.8)) * (0.4 + ts * 0.6)

/-- The boost formula exactly as the spec words it:
`rawBoost = (midpoint + (rideValue - midpoint) * (0.5 + 0.8 * ticketStrength))
* (0.4 + 0.6 * ticketStrength)` with `midpoint = (effectiveMinBoost +
effectiveMaxBoost) / 2`.  Stated separately from `rawBoostFormula` (which
follows the source's operand order) so the refinement between the two is an
explicit theorem. -/
def specRawBoost (rv ts effMin effMax : ℚ) : ℚ :=
  let midpoint := (effMin + effMax) / 2
  (midpoint + (rv - midpoint) * (0.5 + 0.8 * ts)) * (0.4 + 0.6 * ts)

/-! ## Rounding and clamping lemmas -/

theorem roundToDecimals_mono (d : ℕ) {x y : ℚ} (h : x ≤ y) :
    roundToDecimals x d ≤ roundToDecimals y d := by
  have h1 : jsRound (x * 10 ^ d) ≤ jsRound (y * 10 ^ d) := by
    unfold jsRound
    apply Int.floor_le_floor
    have hp : (0:ℚ) ≤ 10 ^ d := by positivity
    have := mul_le_mul_of_nonneg_right h hp
    linarith
  unfold roundToDecimals
  gcongr

theorem roundToDecimals_idem (d : ℕ) (x : ℚ) :
    roundToDecimals (roundToDecimals x d) d = roundToDecimals x d := by
  unfold roundToDecimals jsRound
  have h10 : ((10:ℚ) ^ d) ≠ 0 := by positivity
  rw [div_mul_cancel₀ _ h10]
  norm_num [add_comm ((jsRound (x * 10 ^ d) : ℚ)) (1/2), Int.floor_add_int, jsRound]

theorem le_clampValue (v lo hi : ℚ) : lo ≤ clampValue v lo hi :=
  le_max_left _ _

theorem clampValue_le {lo hi : ℚ} (v : ℚ) (h : lo ≤ hi) : clampValue v lo hi ≤ hi :=
  max_le h (min_le_left _ _)

/-- Rounding a value clamped between two already-rounded bounds stays between
those bounds. -/
theorem roundToDecimals_clamp_mem (d : ℕ) (v x y : ℚ) (hxy : x ≤ y) :
    roundToDecimals x d ≤
      roundToDecimals (clampValue v (roundToDecimals x d) (roundToDecimals y d)) d ∧
    roundToDecimals (clampValue v (roundToDecimals x d) (roundToDecimals y d)) d ≤
      roundToDecimals y d := by
  have hxy' : roundToDecimals x d ≤ roundToDecimals y d := roundToDecimals_mono d hxy
  constructor
  · calc roundToDecimals x d
        = roundToDecimals (roundToDecimals x d) d := (roundToDecimals_idem d x).symm
      _ ≤ _ := roundToDecimals_mono d (le_clampValue _ _ _)
  · calc roundToDecimals (clampValue v (roundToDecimals x d) (roundToDecimals y d)) d
        ≤ roundToDecimals (roundToDecimals y d) d :=
          roundToDecimals_mono d (clampValue_le _ hxy')
      _ = roundToDecimals y d := roundToDecimals_idem d y

/-- `minBoostPct` never exceeds the bounded effective maximum. -/
theorem minBoost_le_boundedMaxOf (ops : NumOps) (qs co : ℚ) (cfg : FinalBoostConfig) :
    cfg.minBoostPct ≤ boundedMaxOf ops qs co cfg :=
  le_max_left _ _

/-- The unrounded effective window is ordered. -/
theorem boundedMinOf_le_boundedMaxOf (ops : NumOps) (qs co : ℚ) (cfg : FinalBoostConfig) :
    boundedMinOf ops qs co cfg ≤ boundedMaxOf ops qs co cfg :=
  clampValue_le _ (minBoost_le_boundedMaxOf ops qs co cfg)

attribute [local semireducible] Rat.add Rat.mul Rat.sub Rat.inv Rat.ofScientific

/-! ## C10 — interpolation on an empty checkpoint array -/

/-- C10: for every `elapsedFraction` input, `interpolateRideValue` applied to
an empty checkpoint array returns 0 (total, no out-of-bounds access). -/
theorem interpolateRideValue_empty (elapsedPct : ℚ) :
    interpolateRideValue [] elapsedPct = 0 := rfl

/-! ## C8 — `deriveCrashPct` range and rounding -/

/-- C8 (amended): for every `NumOps` instantiation, fuel, seed and
`minCrashSeconds`, and every *positive* `durationSeconds`, `deriveCrashPct`
returns a value in `[0.01, 0.99]` that is a fixed point of 4-decimal
rounding.  (For `durationSeconds <= 0` the source returns `1`, outside this
interval — see the counterexample.) -/
theorem deriveCrashPct_bounds (ops : NumOps) (fuel : ℕ) (seed : String)
    (durationSeconds minCrashSeconds : ℚ) (h : 0 < durationSeconds) :
    1/100 ≤ deriveCrashPct ops fuel seed durationSeconds minCrashSeconds ∧
    deriveCrashPct ops fuel seed durationSeconds minCrashSeconds ≤ 99/100 ∧
    roundToDecimals (deriveCrashPct ops fuel seed durationSeconds minCrashSeconds) 4 =
      deriveCrashPct ops fuel seed durationSeconds minCrashSeconds := by
  have hne : ¬ durationSeconds ≤ 0 := not_le.mpr h
  have h1 : roundToDecimals ((1:ℚ)/100) 4 = 1/100 := by
    norm_num [roundToDecimals, jsRound]
  have h2 : roundToDecimals ((99:ℚ)/100) 4 = 99/100 := by
    norm_num [roundToDecimals, jsRound]
  simp only [deriveCrashPct, hne, if_false]
  refine ⟨?_, ?_, roundToDecimals_idem 4 _⟩
  · exact le_trans (le_of_eq h1.symm) (roundToDecimals_mono 4 (le_clampValue _ _ _))
  · exact le_trans (roundToDecimals_mono 4 (clampValue_le _ (by norm_num))) (le_of_eq h2)

/-- Witness for `deriveCrashPct_bounds` at `durationSeconds = 1`. -/
theorem deriveCrashPct_bounds_witness :
    (0:ℚ) < 1 ∧ 1/100 ≤ deriveCrashPct evalOps 3 "a" 1 0 :=
  ⟨by norm_num, (deriveCrashPct_bounds evalOps 3 "a" 1 0 (by norm_num)).1⟩

/-- C8 counterexample: at `durationSeconds = 0` the source returns `1`, which
is not in `[0.01, 0.99]`. -/
theorem deriveCrashPct_zero_duration_counterexample :
    deriveCrashPct evalOps 0 "a" 0 5 = 1 ∧ ¬((1:ℚ) ≤ 99/100) := by
  refine ⟨by decide, by norm_num⟩

/-! ## C3 — final boost stays within the effective window -/

/-- C3 (amended): for every input with `hasRideEnded = false`, the returned
`finalBoostPct` lies in `[effectiveMinBoost, effectiveMaxBoost]` of the same
result's boost model.  (For ended rides the source short-circuits to 0, which
can lie below `effectiveMinBoost` — see the counterexample.) -/
theorem calculateFinalBoost_within_window (ops : NumOps) (rv ts qs co : ℚ)
    (cfg : FinalBoostConfig) :
    (calculateFinalBoostDetails ops ⟨rv, ts, qs, co, false, cfg⟩).boostModel.effectiveMinBoost ≤
      (calculateFinalBoostDetails ops ⟨rv, ts, qs, co, false, cfg⟩).finalBoostPct ∧
    (calculateFinalBoostDetails ops ⟨rv, ts, qs, co, false, cfg⟩).finalBoostPct ≤
      (calculateFinalBoostDetails ops ⟨rv, ts, qs, co, false, cfg⟩).boostModel.effectiveMaxBoost := by
  have hmin : (calculateFinalBoostDetails ops ⟨rv, ts, qs, co, false, cfg⟩).boostModel.effectiveMinBoost
      = roundToDecimals (boundedMinOf ops qs co cfg) 6 := rfl
  have hmax : (calculateFinalBoostDetails ops ⟨rv, ts, qs, co, false, cfg⟩).boostModel.effectiveMaxBoost
      = roundToDecimals (boundedMaxOf ops qs co cfg) 6 := rfl
  have hfb : (calculateFinalBoostDetails ops ⟨rv, ts, qs, co, false, cfg⟩).finalBoostPct
      = roundToDecimals (clampValue
          (rawBoostFormula rv ts (roundToDecimals (boundedMinOf ops qs co cfg) 6)
            (roundToDecimals (boundedMaxOf ops qs co cfg) 6))
          (roundToDecimals (boundedMinOf ops qs co cfg) 6)
          (roundToDecimals (boundedMaxOf ops qs co cfg) 6)) 6 := rfl
  rw [hmin, hmax, hfb]
  exact roundToDecimals_clamp_mem 6 _ _ _ (boundedMinOf_le_boundedMaxOf ops qs co cfg)

/-- C3 counterexample: with `hasRideEnded = true` the returned
`finalBoostPct` is 0, strictly below the reported `effectiveMinBoost = 0.05`
of the very same result. -/
theorem calculateFinalBoost_ended_counterexample :
    (calculateFinalBoostDetails evalOps ⟨2/5, 1, 3, 10, true, ⟨1/20, 1/2, none, none⟩⟩).finalBoostPct <
      (calculateFinalBoostDetails evalOps
        ⟨2/5, 1, 3, 10, true, ⟨1/20, 1/2, none, none⟩⟩).boostModel.effectiveMinBoost := by
  decide

/-! ## C4 — the final boost formula and the concrete 0.4375 scenario -/

/-- C4: for every input with `hasRideEnded = false`, `finalBoostPct` equals
the spec's formula — midpoint amplification by `0.5 + 0.8 * ticketStrength`,
compression by `0.4 + 0.6 * ticketStrength`, clamp to the effective window,
rounding to 6 decimals — and at the spec's concrete scenario (`rideValue 0.4`,
`ticketStrength 1`, `minBoostPct 0.05`, `maxBoostPct 0.5`, no thresholds) it
equals `0.4375`. -/
theorem calculateFinalBoost_formula (ops : NumOps) (rv ts qs co : ℚ)
    (cfg : FinalBoostConfig) :
    (calculateFinalBoostDetails ops ⟨rv, ts, qs, co, false, cfg⟩).finalBoostPct =
      roundToDecimals (clampValue
        (specRawBoost rv ts
          (calculateFinalBoostDetails ops ⟨rv, ts, qs, co, false, cfg⟩).boostModel.effectiveMinBoost
          (calculateFinalBoostDetails ops ⟨rv, ts, qs, co, false, cfg⟩).boostModel.effectiveMaxBoost)
        (calculateFinalBoostDetails ops ⟨rv, ts, qs, co, false, cfg⟩).boostModel.effectiveMinBoost
        (calculateFinalBoostDetails ops ⟨rv, ts, qs, co, false, cfg⟩).boostModel.effectiveMaxBoost) 6 ∧
    (calculateFinalBoostDetails evalOps
      ⟨2/5, 1, 3, 10, false, ⟨1/20, 1/2, none, none⟩⟩).finalBoostPct = 4375/10000 := by
  constructor
  · have hfb : (calculateFinalBoostDetails ops ⟨rv, ts, qs, co, false, cfg⟩).finalBoostPct
        = roundToDecimals (clampValue
            (rawBoostFormula rv ts (roundToDecimals (boundedMinOf ops qs co cfg) 6)
              (roundToDecimals (boundedMaxOf ops qs co cfg) 6))
            (roundToDecimals (boundedMinOf ops qs co cfg) 6)
            (roundToDecimals (boundedMaxOf ops qs co cfg) 6)) 6 := rfl
    have hform : ∀ a b : ℚ, rawBoostFormula rv ts a b = specRawBoost rv ts a b := by
      intro a b
      unfold rawBoostFormula specRawBoost
      ring
    rw [hfb, hform]
    rfl
  · decide

/-! ## C7 — the `effectiveMinBoost` floor-lift formula -/

/-- C7 (amended): `effectiveMinBoost` equals the 6-decimal rounding of
`clamp(minBoostPct + (effectiveMax - minBoostPct) * (eligibilityFactor *
0.35), minBoostPct, effectiveMax)` *when at least one max-boost threshold is
configured*; when neither is configured the floor lift is skipped entirely
and `effectiveMinBoost` is just `minBoostPct` (rounded). -/
theorem computeBoostModel_effectiveMin_formula (ops : NumOps) (qs co : ℚ)
    (cfg : FinalBoostConfig) :
    (hasAnyBoostTarget cfg = true →
      (computeBoostModelDetails ops qs co cfg).effectiveMinBoost =
        roundToDecimals (clampValue
          (cfg.minBoostPct + (boundedMaxOf ops qs co cfg - cfg.minBoostPct) *
            (eligibilityFactorOf ops qs co cfg * 0.35))
          cfg.minBoostPct (boundedMaxOf ops qs co cfg)) 6) ∧
    (hasAnyBoostTarget cfg = false →
      (computeBoostModelDetails ops qs co cfg).effectiveMinBoost =
        roundToDecimals cfg.minBoostPct 6) := by
  have hbm : (computeBoostModelDetails ops qs co cfg).effectiveMinBoost
      = roundToDecimals (boundedMinOf ops qs co cfg) 6 := rfl
  constructor
  · intro ht
    rw [hbm]
    simp only [boundedMinOf, ht, if_true, EFFECTIVE_MIN_FLOOR_RATE]
  · intro hf
    rw [hbm]
    simp only [boundedMinOf, hf, Bool.false_eq_true, if_false, mul_zero, add_zero]
    have hcl : clampValue cfg.minBoostPct cfg.minBoostPct (boundedMaxOf ops qs co cfg)
        = cfg.minBoostPct := by
      unfold clampValue
      rw [min_eq_right (minBoost_le_boundedMaxOf ops qs co cfg), max_self]
    rw [hcl]

/-- Witness for `computeBoostModel_effectiveMin_formula` with a configured
selection threshold. -/
theorem computeBoostModel_effectiveMin_formula_witness :
    hasAnyBoostTarget ⟨1/20, 1/2, some 4, none⟩ = true ∧
    (computeBoostModelDetails evalOps 2 5 ⟨1/20, 1/2, some 4, none⟩).effectiveMinBoost =
      roundToDecimals (clampValue
        ((1:ℚ)/20 + (boundedMaxOf evalOps 2 5 ⟨1/20, 1/2, some 4, none⟩ - 1/20) *
          (eligibilityFactorOf evalOps 2 5 ⟨1/20, 1/2, some 4, none⟩ * 0.35))
        (1/20) (boundedMaxOf evalOps 2 5 ⟨1/20, 1/2, some 4, none⟩)) 6 :=
  ⟨by decide,
    (computeBoostModel_effectiveMin_formula evalOps 2 5 ⟨1/20, 1/2, some 4, none⟩).1 (by decide)⟩

/-- C7 counterexample: with no configured threshold (`eligibilityFactor = 1`)
the claimed formula would yield `0.05 + (0.5 - 0.05) * 0.35 = 0.2075`, but the
source returns `effectiveMinBoost = 0.05`. -/
theorem computeBoostModel_noTarget_counterexample :
    (computeBoostModelDetails evalOps 3 10 ⟨1/20, 1/2, none, none⟩).effectiveMinBoost = 1/20 ∧
    (computeBoostModelDetails evalOps 3 10 ⟨1/20, 1/2, none, none⟩).effectiveMinBoost ≠
      roundToDecimals (clampValue
        ((1:ℚ)/20 +
          ((computeBoostModelDetails evalOps 3 10 ⟨1/20, 1/2, none, none⟩).effectiveMaxBoost - 1/20) *
          ((computeBoostModelDetails evalOps 3 10 ⟨1/20, 1/2, none, none⟩).eligibilityFactor * 0.35))
        (1/20)
        ((computeBoostModelDetails evalOps 3 10 ⟨1/20, 1/2, none, none⟩).effectiveMaxBoost)) 6 := by
  refine ⟨by decide, by decide⟩

/-! ## C9 — monotonicity of the ticket strength score -/

/-- The strength score is never negative (the convex product of nonnegative
factors, capped and rounded). -/
theorem computeTicketStrength_nonneg (ops : NumOps) (cfg : TicketStrengthConfig)
    (hpowNonneg : ∀ e x : ℚ, 0 ≤ x → 0 ≤ ops.powf x e)
    (hBonus : 0 < cfg.maxSelectionBonus.getD 10) (n o : ℚ) :
    0 ≤ computeTicketStrength ops n o cfg := by
  simp only [computeTicketStrength]
  split
  · exact le_refl 0
  · next hguard =>
    push_neg at hguard
    have hsel : (0:ℚ) ≤ min (n - cfg.minSelections + 1) (cfg.maxSelectionBonus.getD 10) /
        cfg.maxSelectionBonus.getD 10 := by
      apply div_nonneg _ hBonus.le
      exact le_min (by linarith [hguard.1]) hBonus.le
    have hraw : (0:ℚ) ≤ ops.powf
        (min (n - cfg.minSelections + 1) (cfg.maxSelectionBonus.getD 10) /
          cfg.maxSelectionBonus.getD 10) (cfg.exponent.getD 1.5) *
        ops.powf (max (ops.log o / ops.log (cfg.baseOdds.getD 3 * 100)) 0.1)
          (cfg.exponent.getD 1.5) := by
      apply mul_nonneg (hpowNonneg _ _ hsel)
      exact hpowNonneg _ _ (le_trans (by norm_num) (le_max_right _ _))
    have hm : (0:ℚ) ≤ min _ 1 := le_min hraw zero_le_one
    calc (0:ℚ) = roundToDecimals 0 6 := by norm_num [roundToDecimals, jsRound]
      _ ≤ _ := roundToDecimals_mono 6 hm

/-- C9 (amended): under the monotonicity/positivity facts the real
`Math.log` / `Math.pow` satisfy on the relevant domains (power monotone in a
nonnegative base, power nonnegative, log monotone on `[1, ∞)`, positive log of
`baseOdds * 100`, positive selection-bonus cap), `computeTicketStrength` is
monotone — *non-strictly* — in the qualifying count (above `minSelections`)
and in the combined odds.  Strictness fails at the selection-bonus cap and at
the unit normalization cap — see the counterexample. -/
theorem computeTicketStrength_monotone (ops : NumOps) (cfg : TicketStrengthConfig)
    (hpowMono : ∀ e x y : ℚ, 0 ≤ x → x ≤ y → ops.powf x e ≤ ops.powf y e)
    (hpowNonneg : ∀ e x : ℚ, 0 ≤ x → 0 ≤ ops.powf x e)
    (hlogMono : ∀ x y : ℚ, 1 ≤ x → x ≤ y → ops.log x ≤ ops.log y)
    (hlogBase : 0 < ops.log (cfg.baseOdds.getD 3 * 100))
    (hBonus : 0 < cfg.maxSelectionBonus.getD 10) :
    (∀ a b odds : ℚ, cfg.minSelections ≤ a → a ≤ b →
      computeTicketStrength ops a odds cfg ≤ computeTicketStrength ops b odds cfg) ∧
    (∀ n o1 o2 : ℚ, o1 ≤ o2 →
      computeTicketStrength ops n o1 cfg ≤ computeTicketStrength ops n o2 cfg) := by
  constructor
  · intro a b odds ha hab
    by_cases ho : odds ≤ 1
    · simp only [computeTicketStrength, if_pos (Or.inr ho : a < cfg.minSelections ∨ odds ≤ 1),
        if_pos (Or.inr ho : b < cfg.minSelections ∨ odds ≤ 1)]
      exact le_refl 0
    · have hga : ¬(a < cfg.minSelections ∨ odds ≤ 1) := by
        push_neg; exact ⟨ha, lt_of_not_le ho⟩
      have hgb : ¬(b < cfg.minSelections ∨ odds ≤ 1) := by
        push_neg; exact ⟨le_trans ha hab, lt_of_not_le ho⟩
      simp only [computeTicketStrength, if_neg hga, if_neg hgb]
      apply roundToDecimals_mono
      apply min_le_min _ le_rfl
      apply mul_le_mul_of_nonneg_right _
        (hpowNonneg _ _ (le_trans (by norm_num) (le_max_right _ _)))
      apply hpowMono
      · apply div_nonneg _ hBonus.le
        exact le_min (by linarith) hBonus.le
      · rw [div_eq_mul_inv, div_eq_mul_inv]
        apply mul_le_mul_of_nonneg_right _ (inv_nonneg.mpr hBonus.le)
        exact min_le_min (by linarith) le_rfl
  · intro n o1 o2 h12
    by_cases hn : n < cfg.minSelections
    · simp only [computeTicketStrength, if_pos (Or.inl hn : n < cfg.minSelections ∨ o1 ≤ 1),
        if_pos (Or.inl hn : n < cfg.minSelections ∨ o2 ≤ 1)]
      exact le_refl 0
    · by_cases ho2 : o2 ≤ 1
      · simp only [computeTicketStrength,
          if_pos (Or.inr (le_trans h12 ho2) : n < cfg.minSelections ∨ o1 ≤ 1),
          if_pos (Or.inr ho2 : n < cfg.minSelections ∨ o2 ≤ 1)]
        exact le_refl 0
      · by_cases ho1 : o1 ≤ 1
        · have h0 : computeTicketStrength ops n o1 cfg = 0 := by
            simp only [computeTicketStrength, if_pos (Or.inr ho1 : n < cfg.minSelections ∨ o1 ≤ 1)]
          rw [h0]
          exact computeTicketStrength_nonneg ops cfg hpowNonneg hBonus n o2
        · have hg1 : ¬(n < cfg.minSelections ∨ o1 ≤ 1) := by
            push_neg; exact ⟨not_lt.mp hn, lt_of_not_le ho1⟩
          have hg2 : ¬(n < cfg.minSelections ∨ o2 ≤ 1) := by
            push_neg; exact ⟨not_lt.mp hn, lt_of_not_le ho2⟩
          simp only [computeTicketStrength, if_neg hg1, if_neg hg2]
          apply roundToDecimals_mono
          apply min_le_min _ le_rfl
          apply mul_le_mul_of_nonneg_left _
            (hpowNonneg _ _ (by
              apply div_nonneg _ hBonus.le
              exact le_min (by linarith [not_lt.mp hn]) hBonus.le))
          apply hpowMono
          · exact le_trans (by norm_num) (le_max_right _ _)
          · apply max_le_max _ le_rfl
            rw [div_eq_mul_inv, div_eq_mul_inv]
            apply mul_le_mul_of_nonneg_right _ (inv_nonneg.mpr hlogBase.le)
            exact hlogMono o1 o2 (le_of_lt (lt_of_not_le ho1)) h12

/-- Witness for `computeTicketStrength_monotone` at the identity-log,
identity-power instantiation. -/
theorem computeTicketStrength_monotone_witness :
    (0:ℚ) < monoOps.log ((⟨1, none, none, none⟩ : TicketStrengthConfig).baseOdds.getD 3 * 100) ∧
    computeTicketStrength monoOps 2 5 ⟨1, none, none, none⟩ ≤
      computeTicketStrength monoOps 3 5 ⟨1, none, none, none⟩ :=
  ⟨by decide,
    (computeTicketStrength_monotone monoOps ⟨1, none, none, none⟩
      (fun _ _ _ _ hxy => hxy) (fun _ _ hx => hx) (fun _ _ _ hxy => hxy)
      (by decide) (by decide)).1 2 3 5 (by norm_num) (by norm_num)⟩

/-- C9 counterexample: with `minSelections = 1` both `a = 10` and `b = 11`
qualify and `a < b`, yet the strengths are equal — the selection bonus is
capped at `maxSelectionBonus = 10`, so strictness fails. -/
theorem computeTicketStrength_strict_counterexample :
    ((1:ℚ) ≤ 10 ∧ (10:ℚ) < 11) ∧
    computeTicketStrength monoOps 10 10 ⟨1, none, none, none⟩ =
      computeTicketStrength monoOps 11 10 ⟨1, none, none, none⟩ := by
  exact ⟨⟨by norm_num, by norm_num⟩, by decide⟩

/-! ## C6 — boundary shape of the generated ride

The enforcement passes only rewrite `baseBoostValue`s; the time fractions of
the checkpoint list are invariant through the whole pipeline.  The lemmas
below prove this pass by pass. -/

theorem timeList_cons (c : RideCheckpoint) (cs : List RideCheckpoint) :
    timeList (c :: cs) = c.timeOffsetPct :: timeList cs := rfl

theorem timeList_setBoost (cps : List RideCheckpoint) (i : ℕ) (v : ℚ) :
    timeList (setBoost cps i v) = timeList cps := by
  induction cps generalizing i with
  | nil => rfl
  | cons c cs ih =>
    cases i with
    | zero => rfl
    | succ n => simp only [setBoost, timeList_cons, ih n]

theorem foldl_preserves {α β : Type} {P : α → Prop} {f : α → β → α}
    (h : ∀ a b, P a → P (f a b)) : ∀ (l : List β) (a : α), P a → P (l.foldl f a)
  | [], _, ha => ha
  | b :: bs, a, ha => foldl_preserves h bs (f a b) (h a b ha)

theorem timeList_foldl {β : Type} {f : List RideCheckpoint → β → List RideCheckpoint}
    (hf : ∀ a b, timeList (f a b) = timeList a) (l : List β) (cps : List RideCheckpoint) :
    timeList (l.foldl f cps) = timeList cps :=
  foldl_preserves (P := fun a => timeList a = timeList cps)
    (fun a b ha => (hf a b).trans ha) l cps rfl

theorem timeList_foldl_fst {β γ : Type}
    {f : List RideCheckpoint × γ → β → List RideCheckpoint × γ}
    (hf : ∀ a b, timeList (f a b).1 = timeList a.1) (l : List β)
    (p : List RideCheckpoint × γ) :
    timeList ((l.foldl f p).1) = timeList p.1 :=
  foldl_preserves (P := fun a => timeList a.1 = timeList p.1)
    (fun a b ha => (hf a b).trans ha) l p rfl

theorem timeList_fillCheckpointValues (ops : NumOps) (cps : List RideCheckpoint)
    (times values : List ℚ) (k : ℕ) (lo hi : ℚ) :
    timeList (fillCheckpointValuesFromTurningPoints ops cps times values k lo hi) =
      timeList cps := by
  unfold fillCheckpointValuesFromTurningPoints
  exact timeList_foldl (fun a b => timeList_setBoost _ _ _) _ _

theorem timeList_fillPostCrashTail (cps : List RideCheckpoint) (k : ℕ) (lo hi : ℚ) :
    timeList (fillPostCrashTail cps k lo hi) = timeList cps := by
  simp only [fillPostCrashTail]
  split
  · rfl
  · exact timeList_foldl (fun a b => timeList_setBoost _ _ _) _ _

theorem timeList_applyStartDirectionBias (cps : List RideCheckpoint) (seed : String)
    (o : StartBiasOptions) : timeList (applyStartDirectionBias cps seed o) = timeList cps := by
  simp only [applyStartDirectionBias, apply_ite timeList, timeList_setBoost, ite_self]

theorem timeList_enforceInitialClimb (cps : List RideCheckpoint) (o : InitialClimbOptions) :
    timeList (enforceInitialClimb cps o) = timeList cps := by
  unfold enforceInitialClimb
  split
  · rfl
  split
  · rfl
  split
  · rfl
  lift_lets
  extract_lets eff climbEnd
  split
  · rfl
  extract_lets range preBoundaryCap collected beforeIdx boundaryIndex defaultStep
    availableHeadroom adaptiveStep requiredHeadroom maxStart cpsA climbed cpsB bi prev
    bt1 nudge bt2
  by_cases hempty : beforeIdx.isEmpty = true ∧ boundaryIndex < 1
  · rw [if_pos hempty]
  · rw [if_neg hempty]
    simp only [apply_ite timeList, timeList_setBoost, ite_self]
    have hfold : timeList cpsB = timeList cpsA := by
      unfold cpsB climbed
      exact timeList_foldl_fst (fun a b => by simp only [timeList_setBoost]) _ _
    rw [hfold]
    unfold cpsA
    simp only [apply_ite timeList, timeList_setBoost, ite_self]

theorem timeList_enforcePeakDelay (cps : List RideCheckpoint)
    (o : PeakDelayEnforcementOptions) :
    timeList (enforcePeakDelayWithoutFlattening cps o) = timeList cps := by
  unfold enforcePeakDelayWithoutFlattening
  cases o.durationSeconds with
  | none => rfl
  | some dur =>
    simp only [apply_ite timeList, timeList_setBoost, ite_self]

theorem timeList_enforcePreCrashFloor (cps : List RideCheckpoint) (o : PreCrashFloorOptions) :
    timeList (enforcePreCrashFloor cps o) = timeList cps := by
  simp only [enforcePreCrashFloor]
  split
  · rfl
  · split
    · rfl
    · exact timeList_foldl (fun a b => by
        split <;> simp only [timeList_setBoost]) _ _

theorem timeList_enforceUniquePreCrashMaximum (cps : List RideCheckpoint)
    (o : UniqueMaxOptions) :
    timeList (enforceUniquePreCrashMaximum cps o) = timeList cps := by
  simp only [enforceUniquePreCrashMaximum]
  split
  · rfl
  · split
    · rfl
    · exact timeList_foldl_fst (fun a b => by
        repeat' split
        all_goals simp only [timeList_setBoost]) _ _

theorem timeList_enforceNoFlatSegments (cps : List RideCheckpoint) (o : FlatSegmentOptions) :
    timeList (enforceNoFlatSegmentsBeforeCrash cps o) = timeList cps := by
  simp only [enforceNoFlatSegmentsBeforeCrash]
  split
  · rfl
  · split
    · rfl
    · exact timeList_foldl (fun a b => by
        split
        · rfl
        · simp only [timeList_setBoost]) _ _

theorem boostList_cons (c : RideCheckpoint) (cs : List RideCheckpoint) :
    boostList (c :: cs) = c.baseBoostValue :: boostList cs := rfl

theorem boostList_length (cps : List RideCheckpoint) : (boostList cps).length = cps.length :=
  List.length_map _ _

theorem timeList_length (cps : List RideCheckpoint) : (timeList cps).length = cps.length :=
  List.length_map _ _

theorem boostList_setBoost (cps : List RideCheckpoint) (i : ℕ) (v : ℚ) :
    boostList (setBoost cps i v) = (boostList cps).set i v := by
  induction cps generalizing i with
  | nil => rfl
  | cons c cs ih =>
    cases i with
    | zero => rfl
    | succ n => simp only [setBoost, boostList_cons, List.set_cons_succ, ih n]

theorem getLast?_set_last {α : Type} (v : α) :
    ∀ (l : List α), l ≠ [] → (l.set (l.length - 1) v).getLast? = some v
  | [], h => absurd rfl h
  | [_], _ => rfl
  | a :: b :: l2, _ => by
    have hlen : (a :: b :: l2).length - 1 = (b :: l2).length - 1 + 1 := by simp
    rw [hlen, List.set_cons_succ]
    have htail := getLast?_set_last v (b :: l2) (by simp)
    rcases hset : (b :: l2).set ((b :: l2).length - 1) v with _ | ⟨x, xs⟩
    · have hcl := congrArg List.length hset
      simp at hcl
    · rw [hset] at htail
      rw [List.getLast?_cons_cons]
      exact htail

theorem timeList_initializeCheckpoints (ops : NumOps) (n : ℕ) (lo hi ts : ℚ) :
    timeList (initializeCheckpoints ops n lo hi ts) =
      (List.range n).map fun (i : ℕ) => roundToDecimals ((i : ℚ) / ((n : ℚ) - 1)) 6 := by
  simp only [initializeCheckpoints, timeList, List.map_map]
  rfl

theorem generateRide_checkpoints_shape (ops : NumOps) (seed : String) (config : RideConfig) :
    ∃ C : List RideCheckpoint,
      (generateRide ops seed config).checkpoints = setBoost C (C.length - 1) 0 ∧
      timeList C = timeList (initializeCheckpoints ops ((max 3 config.checkpointCount).toNat)
        config.minBoostPct config.maxBoostPct (config.ticketStrength.getD 0)) := by
  refine ⟨_, rfl, ?_⟩
  rw [timeList_enforceNoFlatSegments, timeList_enforceUniquePreCrashMaximum,
      timeList_enforcePreCrashFloor, timeList_enforcePeakDelay,
      timeList_enforceInitialClimb, timeList_applyStartDirectionBias]
  split
  · rw [timeList_fillPostCrashTail, timeList_fillCheckpointValues]
  · rfl



/-- C6: for every `NumOps` instantiation, every seed, and every configuration
(no validity assumption is even needed), the generated checkpoint sequence
starts at `timeFraction = 0`, ends at `timeFraction = 1`, and its final
checkpoint's `boostValue` is 0. -/
theorem generateRide_boundary_shape (ops : NumOps) (seed : String) (config : RideConfig) :
    (timeList (generateRide ops seed config).checkpoints).head? = some 0 ∧
    (timeList (generateRide ops seed config).checkpoints).getLast? = some 1 ∧
    (boostList (generateRide ops seed config).checkpoints).getLast? = some 0 := by
  obtain ⟨C, hC, hT⟩ := generateRide_checkpoints_shape ops seed config
  rw [hC]
  rw [timeList_initializeCheckpoints] at hT
  have hlen3 : 3 ≤ (max 3 config.checkpointCount).toNat := by
    have h1 : (3:ℤ) ≤ max 3 config.checkpointCount := le_max_left _ _
    omega
  obtain ⟨m, hm⟩ : ∃ m, (max 3 config.checkpointCount).toNat = m + 1 :=
    ⟨(max 3 config.checkpointCount).toNat - 1, by omega⟩
  have hm2 : 2 ≤ m := by omega
  rw [hm] at hT
  have hClen : C.length = m + 1 := by
    have hl := congrArg List.length hT
    simpa [timeList_length, List.length_map, List.length_range] using hl
  have hCne : C ≠ [] := by
    intro hnil
    rw [hnil] at hClen
    simp at hClen
  constructor
  · -- head of times
    rw [timeList_setBoost, hT]
    rw [List.head?_map]
    rw [List.range_succ_eq_map]
    simp only [List.head?_cons, Option.map_some']
    norm_num [roundToDecimals, jsRound]
  constructor
  · -- last time
    rw [timeList_setBoost, hT]
    rw [List.getLast?_map]
    rw [List.range_succ, List.getLast?_concat]
    simp only [Option.map_some']
    have hcast : ((m + 1 : ℕ) : ℚ) - 1 = (m : ℚ) := by push_cast; ring
    rw [hcast]
    have hmne : (m : ℚ) ≠ 0 := by
      have : (0:ℚ) < m := by exact_mod_cast Nat.lt_of_lt_of_le (by norm_num) hm2
      exact ne_of_gt this
    rw [div_self hmne]
    norm_num [roundToDecimals, jsRound]
  · -- last boost
    rw [boostList_setBoost]
    have hbne : boostList C ≠ [] := by
      intro hnil
      have := congrArg List.length hnil
      rw [boostList_length, hClen] at this
      simp at this
    have hidx : C.length - 1 = (boostList C).length - 1 := by rw [boostList_length]
    rw [hidx]
    exact getLast?_set_last 0 (boostList C) hbne

/-! ## C1, C2, C5 — failing evaluations of `generateRide`

On the configurations below, every pre-crash write of the pipeline is of the
form `round₆(clamp(v, minBoostPct, maxBoostPct))` over a boost window narrower
than (C1/C2) or misaligned with (C5) the `10⁻⁶` rounding grid, so the final
checkpoint values are independent of the PRNG draws (any values in `[0, 1]`
give the same rounded results), of the easing cosine, and of `powf` (which is
only applied to `Math.pow(0, 0.85) = 0`, reproduced by `evalOps`).  The
theorems evaluate the embedding at these concrete inputs. -/

set_option maxRecDepth 100000 in
/-- C1 (code bug): on `tieRideConfig` (boost window `[0.05, 0.0500004]`,
narrower than one rounding unit) all four pre-crash checkpoints (times 0,
0.2, 0.4, 0.6, all `< crashFraction = 0.8`) end up with the *same* value
`0.05` — four checkpoints attain the pre-crash maximum, and none lies below
it by more than any tolerance, although `enforceUniquePreCrashMaximum` and
`enforceNoFlatSegmentsBeforeCrash` were meant to guarantee a unique maximum:
their epsilons and thresholds collapse under `round₆ ∘ clamp` on a window
this narrow. -/
theorem generateRide_uniqueMax_violation :
    boostList (generateRide evalOps "c1" tieRideConfig).checkpoints =
      [1/20, 1/20, 1/20, 1/20, 3/80, 0] ∧
    timeList (generateRide evalOps "c1" tieRideConfig).checkpoints =
      [0, 1/5, 2/5, 3/5, 4/5, 1] ∧
    getBoost (generateRide evalOps "c1" tieRideConfig).checkpoints 0 =
      getBoost (generateRide evalOps "c1" tieRideConfig).checkpoints 1 := by
  refine ⟨by decide, by decide, by decide⟩

set_option maxRecDepth 100000 in
/-- C2 (code bug): on `peakDelayRideConfig` — exactly the spec's concrete
scenario `durationSeconds = 10`, `crashFraction = 0.8`,
`minPeakDelaySeconds = 2` — every pre-crash checkpoint carries the same value
`0.05`, so the earliest checkpoint attaining the pre-crash maximum is
checkpoint 0 at `timeFraction = 0 < 2/10`: the promotion performed by
`enforcePeakDelayWithoutFlattening` writes
`round₆(clamp(max + ε, min, max)) = 0.05`, leaving the early maximum in
place. -/
theorem generateRide_peakDelay_violation :
    boostList (generateRide evalOps "c2" peakDelayRideConfig).checkpoints =
      [1/20, 1/20, 1/20, 1/20, 3/80, 0] ∧
    timeList (generateRide evalOps "c2" peakDelayRideConfig).checkpoints =
      [0, 1/5, 2/5, 3/5, 4/5, 1] := by
  refine ⟨by decide, by decide⟩

set_option maxRecDepth 100000 in
/-- C5 (code bug): on `subUlpRideConfig` (`minBoostPct = 0.0500014`, not a
multiple of `10⁻⁶`), checkpoint 0 — strictly before `crashFraction = 0.01` —
ends with `boostValue = 0.050001 < minBoostPct`: the starting value is
clamped into `[min, max]` *before* the 6-decimal rounding, and the rounding
pushes it back below the floor, which no later pass repairs (the floor pass
starts at index 1). -/
theorem generateRide_belowMin_violation :
    getTime (generateRide evalOps "c5" subUlpRideConfig).checkpoints 0 = 0 ∧
    getBoost (generateRide evalOps "c5" subUlpRideConfig).checkpoints 0 = 50001/1000000 ∧
    getBoost (generateRide evalOps "c5" subUlpRideConfig).checkpoints 0 <
      subUlpRideConfig.minBoostPct := by
  refine ⟨by decide, by decide, by decide⟩

end Rollercoaster
